import Mathlib

/-!
Shallow embedding of the TurnaPlay team-membership and invite engine.

The definitions below are translated from the Django source of the
repository (apps game_account, tournament_registration, tournament_invite,
tournaments).  Database tables become lists of records, a committed state is
a DB value, and every request handler becomes a function
DB -> Except Err DB.  A function that returns Except.error corresponds to a
request whose transaction is rolled back (or that never wrote anything), so
the caller keeps the previous state; applyResult makes that explicit.

Identifier-like fields (UUID primary keys) are modelled as Nat; uuid4
generation is modelled by freshId, which returns a number strictly larger
than every id already present.  The tournament_format of a tournament is
flattened into the Tournament record (gameId, teamSize).  The is_active
annotation computed by TournamentManager exists only on tournaments loaded
through that manager directly (list pages); every invite persistence path
reaches the tournament by FK traversal through the plain base manager, so
there the annotation is absent, Tournament has no registration_*_date
fields either, and TournamentInvite._is_tournament_active falls through to
its final constant-True fallback: isTournamentActiveFK models exactly that.
The Bool field isActive records the annotation value where it would exist,
but no persistence operation ever consults it.
-/

namespace TurnaPlay

/-- Status of a TournamentInvite (tournament_invite/models.py, lines 13-16). -/
inductive InviteStatus where
  | pending
  | accepted
  | rejected
deriving DecidableEq, Repr

/-- Status of a TournamentRegistration (tournament_registration/models.py, lines 27-30). -/
inductive TeamStatus where
  | invalid
  | valid
  | registered
deriving DecidableEq, Repr

/-- A tournament together with its (flattened) tournament_format:
gameId is tournament_format.game_id, teamSize is tournament_format.team_size.
isActive records the is_active annotation that TournamentManager attaches to
direct queryset reads; FK traversals (all invite persistence paths) never
see it, so no operation below reads this field. -/
structure Tournament where
  id : Nat
  gameId : Nat
  teamSize : Nat
  isActive : Bool
deriving DecidableEq, Repr

/-- game_account/models.py, GameAccount. -/
structure GameAccount where
  id : Nat
  userId : Nat
  gameId : Nat
  active : Bool
deriving DecidableEq, Repr

/-- tournament_registration/models.py, TournamentRegistration (a team). -/
structure Team where
  id : Nat
  tournamentId : Nat
  teamName : String
  status : TeamStatus
deriving DecidableEq, Repr

/-- tournament_registration/models.py, TeamMember.  The order field has
Django default 0, and neither the invite-accept path nor the team-creation
path ever assigns it, so new rows always carry order 0. -/
structure TeamMember where
  id : Nat
  gameAccountId : Nat
  teamId : Nat
  isLeader : Bool
  order : Nat
deriving DecidableEq, Repr

/-- tournament_invite/models.py, TournamentInvite.  userId is the invited
user (user_account), teamId the inviting TournamentRegistration. -/
structure Invite where
  id : Nat
  userId : Nat
  teamId : Nat
  status : InviteStatus
deriving DecidableEq, Repr

/-- One committed database state. -/
structure DB where
  tournaments : List Tournament
  gameAccounts : List GameAccount
  teams : List Team
  members : List TeamMember
  invites : List Invite
deriving DecidableEq, Repr

/-- Discriminated error kinds raised by the operations.  Each constructor
stands for one concrete Python failure (a ValidationError message, a 404, a
PermissionDenied, a JSON error response, or an uncaught NameError). -/
inductive Err where
  | notFound
  | notPending
  | closed
  | teamFull
  | invalidAccount
  | gameMismatch
  | nameErrorIsLeader
  | alreadyOtherTeam
  | missingLeader
  | duplicateLeader
  | orderTooLarge
  | duplicatePending
  | forbidden
  | selfInvite
  | alreadyMember
  | duplicateTeamName
  | nothingToCancel
deriving DecidableEq, Repr

/-- True on Except.ok, false on Except.error. -/
def resultOk {e a : Type} : Except e a → Bool
  | Except.ok _ => true
  | Except.error _ => false

instance {e a : Type} [DecidableEq e] [DecidableEq a] : DecidableEq (Except e a) := fun x y =>
  match x, y with
  | Except.ok u, Except.ok v =>
    if h : u = v then Decidable.isTrue (by rw [h])
    else Decidable.isFalse (by intro hh; cases hh; exact h rfl)
  | Except.error u, Except.error v =>
    if h : u = v then Decidable.isTrue (by rw [h])
    else Decidable.isFalse (by intro hh; cases hh; exact h rfl)
  | Except.ok _, Except.error _ => Decidable.isFalse (by intro hh; exact Except.noConfusion hh)
  | Except.error _, Except.ok _ => Decidable.isFalse (by intro hh; exact Except.noConfusion hh)

/-- Commit-or-rollback: an operation that returns an error leaves the
caller with the previous committed state. -/
def applyResult (db : DB) : Except Err DB → DB
  | Except.ok db2 => db2
  | Except.error _ => db

/-- uuid4 / autoincrement: an id strictly larger than every id in the list. -/
def freshId (l : List Nat) : Nat := l.foldr (fun a b => max a b) 0 + 1

def findTournament (db : DB) (i : Nat) : Option Tournament :=
  db.tournaments.find? (fun t => t.id == i)

def findGA (db : DB) (i : Nat) : Option GameAccount :=
  db.gameAccounts.find? (fun g => g.id == i)

def findTeam (db : DB) (i : Nat) : Option Team :=
  db.teams.find? (fun t => t.id == i)

def findInvite (db : DB) (i : Nat) : Option Invite :=
  db.invites.find? (fun v => v.id == i)

/-- Does game account gid resolve to owner uid? (game_account__user lookups). -/
def gaUserIs (db : DB) (gid uid : Nat) : Bool :=
  match findGA db gid with
  | some g => g.userId == uid
  | none => false

/-- Does team tid belong to tournament toid? (team__tournament lookups). -/
def teamInTournament (db : DB) (tid toid : Nat) : Bool :=
  match findTeam db tid with
  | some t => t.tournamentId == toid
  | none => false

/-- members.count() for one team. -/
def memberCount (db : DB) (teamId : Nat) : Nat :=
  (db.members.filter (fun m => m.teamId == teamId)).length

/-- TeamMember.objects.filter(game_account__user=u, team__tournament=t).exists():
is user uid on some team of tournament toid through any of their game
accounts?  Used by create_invite (views.py line 149) and by TeamMember.clean. -/
def userMemberViaAnyGA (db : DB) (uid toid : Nat) : Bool :=
  db.members.any (fun m => gaUserIs db m.gameAccountId uid && teamInTournament db m.teamId toid)

/-- The membership check of TournamentInvite.clean (models.py lines 130-137):
it first collects the ACTIVE game accounts of the user and only then looks
for TeamMember rows, so memberships through inactive accounts are missed. -/
def userMemberViaActiveGA (db : DB) (uid toid : Nat) : Bool :=
  db.members.any (fun m =>
    (match findGA db m.gameAccountId with
     | some g => g.userId == uid && g.active
     | none => false)
    && teamInTournament db m.teamId toid)

/-- _is_leader (tournament_invite/views.py line 30) and _is_user_team_leader
(tournament_registration/views.py line 175). -/
def isUserTeamLeader (db : DB) (uid tid : Nat) : Bool :=
  db.members.any (fun m => m.teamId == tid && m.isLeader && gaUserIs db m.gameAccountId uid)

/-- _is_user_in_team (tournament_registration/views.py line 186). -/
def isUserInTeam (db : DB) (uid tid : Nat) : Bool :=
  db.members.any (fun m => m.teamId == tid && gaUserIs db m.gameAccountId uid)

/-- TournamentInvite.team_has_capacity (models.py line 101): current member
count strictly below team_size (the limit is always known here since every
tournament carries a format). -/
def teamHasCapacity (db : DB) (teamId : Nat) (t : Tournament) : Bool :=
  memberCount db teamId < t.teamSize

/-- The one-user-one-team conflict queryset of TeamMember.clean
(tournament_registration/models.py lines 91-98): another row, through any
game account of the same user, on any team of the same tournament. -/
def cleanConflict (db : DB) (m : TeamMember) (uid toid : Nat) : Bool :=
  db.members.any (fun m2 =>
    m2.id != m.id && gaUserIs db m2.gameAccountId uid && teamInTournament db m2.teamId toid)

/-- The leader count of TeamMember.clean (models.py lines 106-110). -/
def cleanLeaderCount (db : DB) (m : TeamMember) : Nat :=
  (db.members.filter (fun m2 => m2.id != m.id && m2.teamId == m.teamId && m2.isLeader)).length
    + (if m.isLeader then 1 else 0)

/-- The member count excluding self of TeamMember.clean (models.py line 118). -/
def cleanOtherCount (db : DB) (m : TeamMember) : Nat :=
  (db.members.filter (fun m2 => m2.id != m.id && m2.teamId == m.teamId)).length

/-- TeamMember.clean (tournament_registration/models.py lines 88-131).
The last two checks (lines 127-131) read the bare name is_leader, which is
bound nowhere in scope: when control reaches line 127, Python raises
NameError no matter what (with order == 0 line 127 evaluates the name,
otherwise the unguarded line 130 does).  The embedding records that
unconditional crash as Err.nameErrorIsLeader, so this function can never
return Except.ok, and neither can any operation that calls full_clean on a
TeamMember. -/
def teamMemberClean (db : DB) (m : TeamMember) : Except Err Unit :=
  match findGA db m.gameAccountId, findTeam db m.teamId with
  | some ga, some team =>
    match findTournament db team.tournamentId with
    | some t =>
      if cleanConflict db m ga.userId team.tournamentId then Except.error Err.alreadyOtherTeam
      else if cleanLeaderCount db m == 0 then Except.error Err.missingLeader
      else if 1 < cleanLeaderCount db m then Except.error Err.duplicateLeader
      else if t.teamSize < cleanOtherCount db m + 1 then Except.error Err.teamFull
      else if t.teamSize ≤ m.order then Except.error Err.orderTooLarge
      else Except.error Err.nameErrorIsLeader
    | none => Except.error Err.notFound
  | _, _ => Except.error Err.notFound

/-- TournamentInvite._is_tournament_active (models.py lines 64-91) as it
evaluates on every persistence path: the tournament there is FK-loaded
through the plain base manager (Tournament.Meta sets no base_manager_name),
so the is_active queryset annotation is never present; Tournament has none
of the registration_open/close/start/end date fields, so the date fallback
is skipped; the function always reaches the final fallback and returns
True.  The check is kept as a branch to mirror the source, but it is dead
code. -/
def isTournamentActiveFK (t : Tournament) : Bool := true

/-- TournamentInvite.clean (tournament_invite/models.py lines 108-145).
Django collects the failed checks into one error dict and raises once; the
embedding reports the first failed check, which raises exactly when the
Python code raises.  The openness branch mirrors models.py line 119 but can
never fire (isTournamentActiveFK is constant True on these paths). -/
def inviteClean (db : DB) (inv : Invite) : Except Err Unit :=
  match findTeam db inv.teamId with
  | none => Except.error Err.notFound
  | some team =>
    match findTournament db team.tournamentId with
    | none => Except.error Err.notFound
    | some t =>
      if !isTournamentActiveFK t then Except.error Err.closed
      else if !teamHasCapacity db inv.teamId t then Except.error Err.teamFull
      else if userMemberViaActiveGA db inv.userId team.tournamentId then Except.error Err.alreadyMember
      else Except.ok ()

/-- The conditional unique constraint unique_pending_invite_per_user_and_team
(models.py lines 45-53), as validated by full_clean: it only fires when the
saved row itself is pending, and it excludes the row being saved by pk. -/
def invitePendingConflict (db : DB) (inv : Invite) : Bool :=
  inv.status == InviteStatus.pending &&
    db.invites.any (fun w =>
      w.id != inv.id && w.userId == inv.userId && w.teamId == inv.teamId &&
        w.status == InviteStatus.pending)

/-- TournamentInvite.full_clean as invoked by the overridden save
(models.py lines 147-149): model clean plus the conditional unique
constraint. -/
def inviteFullClean (db : DB) (inv : Invite) : Except Err Unit :=
  match inviteClean db inv with
  | Except.error e => Except.error e
  | Except.ok _ =>
    if invitePendingConflict db inv then Except.error Err.duplicatePending
    else Except.ok ()

/-- Write an invite row: replace the row with the same pk if it exists,
otherwise insert the new row. -/
def upsertInvite (db : DB) (inv : Invite) : DB :=
  if db.invites.any (fun v => v.id == inv.id) then
    { db with invites := db.invites.map (fun v => if v.id == inv.id then inv else v) }
  else
    { db with invites := inv :: db.invites }

/-- TournamentInvite.save (models.py lines 147-149): full_clean, then the
actual write.  Every creation and every status update goes through here. -/
def inviteSave (db : DB) (inv : Invite) : Except Err DB :=
  match inviteFullClean db inv with
  | Except.error e => Except.error e
  | Except.ok _ => Except.ok (upsertInvite db inv)

def freshMemberId (db : DB) : Nat := freshId (db.members.map (fun m => m.id))

def freshInviteId (db : DB) : Nat := freshId (db.invites.map (fun v => v.id))

def freshTeamId (db : DB) : Nat := freshId (db.teams.map (fun t => t.id))

/-- TournamentInvite.accept (tournament_invite/models.py lines 153-196),
wrapped in transaction.atomic: an error means full rollback.  The created
TeamMember carries is_leader False and the default order 0; its full_clean
(teamMemberClean) precedes the write.  The openness guard of lines 167-168
is kept as a branch but can never fire on real call paths
(isTournamentActiveFK). -/
def inviteAccept (db : DB) (invId gaId : Nat) : Except Err DB :=
  match findInvite db invId with
  | none => Except.error Err.notFound
  | some inv =>
    if inv.status != InviteStatus.pending then Except.error Err.notPending
    else
      match findTeam db inv.teamId with
      | none => Except.error Err.notFound
      | some team =>
        match findTournament db team.tournamentId with
        | none => Except.error Err.notFound
        | some t =>
          if !isTournamentActiveFK t then Except.error Err.closed
          else if !teamHasCapacity db inv.teamId t then Except.error Err.teamFull
          else
            match findGA db gaId with
            | none => Except.error Err.notFound
            | some ga =>
              if ga.userId != inv.userId || !ga.active then Except.error Err.invalidAccount
              else if ga.gameId != t.gameId then Except.error Err.gameMismatch
              else
                match teamMemberClean db
                    { id := freshMemberId db, gameAccountId := gaId, teamId := inv.teamId,
                      isLeader := false, order := 0 } with
                | Except.error e => Except.error e
                | Except.ok _ =>
                  inviteSave
                    { db with members :=
                        { id := freshMemberId db, gameAccountId := gaId, teamId := inv.teamId,
                          isLeader := false, order := 0 } :: db.members }
                    { inv with status := InviteStatus.accepted }

/-- _recompute_team_status (tournament_invite/views.py lines 38-48). -/
def recomputeTeamStatus (db : DB) (teamId : Nat) : DB :=
  match findTeam db teamId with
  | none => db
  | some team =>
    match findTournament db team.tournamentId with
    | none => db
    | some t =>
      if team.status == (if memberCount db teamId == t.teamSize then TeamStatus.valid else TeamStatus.invalid) then db
      else
        { db with teams := db.teams.map (fun tm =>
            if tm.id == teamId then
              { tm with status :=
                  if memberCount db teamId == t.teamSize then TeamStatus.valid else TeamStatus.invalid }
            else tm) }

/-- api_accept_invite (tournament_invite/views.py lines 190-234), wrapped in
transaction.atomic.  The view never rechecks tournament openness; its
capacity check precedes the game-account lookup; member.full_clean
(teamMemberClean) precedes every write, so its inevitable failure leaves
the state untouched (a caught ValidationError answers 400, the NameError
answers 500, and in both cases nothing was written). -/
def apiAcceptInvite (db : DB) (requester invId gaId : Nat) : Except Err DB :=
  match findInvite db invId with
  | none => Except.error Err.notFound
  | some inv =>
    if inv.userId != requester then Except.error Err.notFound
    else if inv.status != InviteStatus.pending then Except.error Err.notPending
    else
      match findTeam db inv.teamId with
      | none => Except.error Err.notFound
      | some team =>
        match findTournament db team.tournamentId with
        | none => Except.error Err.notFound
        | some t =>
          if t.teamSize ≤ memberCount db inv.teamId then Except.error Err.teamFull
          else
            match findGA db gaId with
            | none => Except.error Err.notFound
            | some ga =>
              if ga.userId != requester || !ga.active then Except.error Err.notFound
              else if ga.gameId != t.gameId then Except.error Err.gameMismatch
              else
                match teamMemberClean db
                    { id := freshMemberId db, gameAccountId := gaId, teamId := inv.teamId,
                      isLeader := false, order := 0 } with
                | Except.error e => Except.error e
                | Except.ok _ =>
                  match inviteSave
                      { db with members :=
                          { id := freshMemberId db, gameAccountId := gaId, teamId := inv.teamId,
                            isLeader := false, order := 0 } :: db.members }
                      { inv with status := InviteStatus.accepted } with
                  | Except.error e => Except.error e
                  | Except.ok db2 => Except.ok (recomputeTeamStatus db2 inv.teamId)

/-- api_reject_invite (tournament_invite/views.py lines 237-255): the invite
is fetched with user_account=request.user, must be pending, and the status
update goes through the overridden save, hence through full_clean. -/
def apiRejectInvite (db : DB) (requester invId : Nat) : Except Err DB :=
  match findInvite db invId with
  | none => Except.error Err.notFound
  | some inv =>
    if inv.userId != requester then Except.error Err.notFound
    else if inv.status != InviteStatus.pending then Except.error Err.notPending
    else inviteSave db { inv with status := InviteStatus.rejected }

/-- Delete every member row of one team whose game account belongs to one
user (the accepted-invite branch of api_cancel_invite, views.py line 281,
and the non-leader branch of leave_team). -/
def removeUserMembers (db : DB) (teamId uid : Nat) : DB :=
  { db with members := db.members.filter (fun m => !(m.teamId == teamId && gaUserIs db m.gameAccountId uid)) }

/-- api_cancel_invite (tournament_invite/views.py lines 258-287), wrapped in
transaction.atomic: only the team leader may cancel; a pending invite is
deleted outright; an accepted invite has the member rows of the invited
user removed, the status written back to rejected through save/full_clean
(which can itself fail and roll everything back), and the team status
recomputed. -/
def apiCancelInvite (db : DB) (requester invId : Nat) : Except Err DB :=
  match findInvite db invId with
  | none => Except.error Err.notFound
  | some inv =>
    if !isUserTeamLeader db requester inv.teamId then Except.error Err.forbidden
    else if inv.status == InviteStatus.pending then
      Except.ok { db with invites := db.invites.filter (fun v => v.id != invId) }
    else if inv.status == InviteStatus.accepted then
      match inviteSave (removeUserMembers db inv.teamId inv.userId)
          { inv with status := InviteStatus.rejected } with
      | Except.error e => Except.error e
      | Except.ok db2 => Except.ok (recomputeTeamStatus db2 inv.teamId)
    else Except.error Err.nothingToCancel

/-- create_invite (tournament_invite/views.py lines 114-166).  The username
or email lookup is modelled as the resolved target user id.  Order of the
checks follows the view: team 404, leader permission, self-invite, target
already on a team of the tournament (through ANY game account), then
TournamentInvite.objects.create, which runs save and therefore full_clean. -/
def createInvite (db : DB) (requester targetUser teamId : Nat) : Except Err DB :=
  match findTeam db teamId with
  | none => Except.error Err.notFound
  | some team =>
    if !isUserTeamLeader db requester teamId then Except.error Err.forbidden
    else if targetUser == requester then Except.error Err.selfInvite
    else if userMemberViaAnyGA db targetUser team.tournamentId then Except.error Err.alreadyMember
    else
      inviteSave db
        { id := freshInviteId db, userId := targetUser, teamId := teamId,
          status := InviteStatus.pending }

/-- Cascade of TournamentRegistration.delete(): member rows (FK team,
CASCADE) and invites (FK tournament_registration, CASCADE) go with the
team. -/
def deleteTeamCascade (db : DB) (teamId : Nat) : DB :=
  { db with
      teams := db.teams.filter (fun t => t.id != teamId),
      members := db.members.filter (fun m => m.teamId != teamId),
      invites := db.invites.filter (fun v => v.teamId != teamId) }

/-- leave_team (tournament_registration/views.py lines 123-139): a leader
leaving deletes the whole team, anyone else only their own rows. -/
def leaveTeam (db : DB) (requester teamId : Nat) : Except Err DB :=
  match findTeam db teamId with
  | none => Except.error Err.notFound
  | some _ =>
    if !isUserInTeam db requester teamId then Except.error Err.forbidden
    else if isUserTeamLeader db requester teamId then Except.ok (deleteTeamCascade db teamId)
    else Except.ok (removeUserMembers db teamId requester)

/-- kick_member (tournament_registration/views.py lines 141-164): the leader
deletes the member rows with the posted game-account id; nothing stops the
leader from naming their own game account. -/
def kickMember (db : DB) (requester teamId gaId : Nat) : Except Err DB :=
  match findTeam db teamId with
  | none => Except.error Err.notFound
  | some _ =>
    if !isUserInTeam db requester teamId then Except.error Err.forbidden
    else if !isUserTeamLeader db requester teamId then Except.error Err.forbidden
    else if (db.members.filter (fun m => m.teamId == teamId && m.gameAccountId == gaId)).isEmpty then
      Except.error Err.notFound
    else
      Except.ok { db with members := db.members.filter (fun m => !(m.teamId == teamId && m.gameAccountId == gaId)) }

/-- new_team_form and _try_create_team (tournament_registration/views.py
lines 13-46 and 192-216) together with PreTeamMemberForm.save
(tournament_registration/forms.py lines 69-88): form validation restricts
the game account to an active account of the requester for the tournament
game; the view refuses a requester already on a team of the tournament; the
team row is saved first; the leader row then runs full_clean, and on any
failure the view deletes the freshly written team again and re-raises, so
nothing persists. -/
def tryCreateTeam (db : DB) (requester tournamentId : Nat) (teamName : String) (gaId : Nat) :
    Except Err DB :=
  match findTournament db tournamentId with
  | none => Except.error Err.notFound
  | some t =>
    match findGA db gaId with
    | none => Except.error Err.invalidAccount
    | some ga =>
      if ga.userId != requester || !ga.active || ga.gameId != t.gameId then
        Except.error Err.invalidAccount
      else if userMemberViaAnyGA db requester tournamentId then Except.error Err.alreadyMember
      else if db.teams.any (fun tm => tm.tournamentId == tournamentId && tm.teamName == teamName) then
        Except.error Err.duplicateTeamName
      else
        match teamMemberClean
            { db with teams :=
                { id := freshTeamId db, tournamentId := tournamentId, teamName := teamName,
                  status := TeamStatus.invalid } :: db.teams }
            { id := freshMemberId db, gameAccountId := gaId, teamId := freshTeamId db,
              isLeader := true, order := 0 } with
        | Except.error e => Except.error e
        | Except.ok _ =>
          Except.ok
            { db with
                teams :=
                  { id := freshTeamId db, tournamentId := tournamentId, teamName := teamName,
                    status := TeamStatus.invalid } :: db.teams,
                members :=
                  { id := freshMemberId db, gameAccountId := gaId, teamId := freshTeamId db,
                    isLeader := true, order := 0 } :: db.members }

/-! ## Invariants and the transition system -/

/-- The single-leader invariant for one team id over a member table: if the
team has members at all, exactly one of them has is_leader set, and every
leader row has order 0. -/
def membersLeaderOk (ms : List TeamMember) (tid : Nat) : Bool :=
  (ms.filter (fun m => m.teamId == tid)).isEmpty ||
    ((((ms.filter (fun m => m.teamId == tid)).filter (fun m => m.isLeader)).length == 1) &&
      (ms.filter (fun m => m.teamId == tid)).all (fun m => !m.isLeader || m.order == 0))

/-- Every team of the state with at least one member has exactly one leader,
and that leader has order 0. -/
def leaderInvariant (db : DB) : Bool :=
  db.teams.all (fun t => membersLeaderOk db.members t.id)

/-- Two invite rows that are both pending for the same (user, team) pair. -/
def pendingClash (a b : Invite) : Bool :=
  a.status == InviteStatus.pending && b.status == InviteStatus.pending &&
    a.userId == b.userId && a.teamId == b.teamId

/-- No two rows of the list clash (each row is checked against the later
ones; the clash relation is symmetric). -/
def pairwiseNoClash : List Invite → Bool
  | [] => true
  | v :: rest => rest.all (fun w => !pendingClash v w) && pairwiseNoClash rest

/-- At most one pending invite per (user, team) pair. -/
def pendingUnique (db : DB) : Bool := pairwiseNoClash db.invites

/-- One committed mutating request of the core: team creation, invite
acceptance (model-level helper and JSON view), rejection, cancellation,
leaving and kicking, and invite creation.  A step only exists when the
operation succeeded; failed requests leave the committed state unchanged. -/
inductive Step : DB → DB → Prop where
  | createTeam {db db2 : DB} (r tid : Nat) (nm : String) (g : Nat)
      (h : tryCreateTeam db r tid nm g = Except.ok db2) : Step db db2
  | acceptModel {db db2 : DB} (i g : Nat)
      (h : inviteAccept db i g = Except.ok db2) : Step db db2
  | acceptView {db db2 : DB} (r i g : Nat)
      (h : apiAcceptInvite db r i g = Except.ok db2) : Step db db2
  | rejectView {db db2 : DB} (r i : Nat)
      (h : apiRejectInvite db r i = Except.ok db2) : Step db db2
  | cancelView {db db2 : DB} (r i : Nat)
      (h : apiCancelInvite db r i = Except.ok db2) : Step db db2
  | leave {db db2 : DB} (r t : Nat)
      (h : leaveTeam db r t = Except.ok db2) : Step db db2
  | kick {db db2 : DB} (r t g : Nat)
      (h : kickMember db r t g = Except.ok db2) : Step db db2
  | invite {db db2 : DB} (r u t : Nat)
      (h : createInvite db r u t = Except.ok db2) : Step db db2

/-- No member row of team tid with game account g is a leader row (the kick
does not hit the leader). -/
def kickRemovesNoLeader (db : DB) (tid g : Nat) : Bool :=
  db.members.all (fun m => !(m.teamId == tid && m.gameAccountId == g && m.isLeader))

/-- No member row of team tid owned by user uid is a leader row (the
cancellation does not hit the leader). -/
def cancelRemovesNoLeader (db : DB) (tid uid : Nat) : Bool :=
  db.members.all (fun m => !(m.teamId == tid && gaUserIs db m.gameAccountId uid && m.isLeader))

/-- Like Step, but a kick never names a game account that backs a leader
row, and a cancellation of an accepted invite never targets the user who
owns the leader row.  The code does not enforce either restriction. -/
inductive SafeStep : DB → DB → Prop where
  | createTeam {db db2 : DB} (r tid : Nat) (nm : String) (g : Nat)
      (h : tryCreateTeam db r tid nm g = Except.ok db2) : SafeStep db db2
  | acceptModel {db db2 : DB} (i g : Nat)
      (h : inviteAccept db i g = Except.ok db2) : SafeStep db db2
  | acceptView {db db2 : DB} (r i g : Nat)
      (h : apiAcceptInvite db r i g = Except.ok db2) : SafeStep db db2
  | rejectView {db db2 : DB} (r i : Nat)
      (h : apiRejectInvite db r i = Except.ok db2) : SafeStep db db2
  | cancelView {db db2 : DB} (r i : Nat) (inv : Invite)
      (hfind : findInvite db i = some inv)
      (hsafe : inv.status = InviteStatus.accepted →
        cancelRemovesNoLeader db inv.teamId inv.userId = true)
      (h : apiCancelInvite db r i = Except.ok db2) : SafeStep db db2
  | leave {db db2 : DB} (r t : Nat)
      (h : leaveTeam db r t = Except.ok db2) : SafeStep db db2
  | kick {db db2 : DB} (r t g : Nat)
      (hsafe : kickRemovesNoLeader db t g = true)
      (h : kickMember db r t g = Except.ok db2) : SafeStep db db2
  | invite {db db2 : DB} (r u t : Nat)
      (h : createInvite db r u t = Except.ok db2) : SafeStep db db2

/-- Finitely many committed steps of R. -/
inductive Chain (R : DB → DB → Prop) : DB → DB → Prop where
  | refl (db : DB) : Chain R db db
  | tail {a b c : DB} (hab : Chain R a b) (hbc : R b c) : Chain R a c

/-! ## Concrete committed states used as evidence -/

/-- A healthy acceptance scenario: open tournament of team size 3, a team
holding only its leader (user 1), a pending invite (id 10) to user 2, who
owns an active game account (id 2) for the tournament game. -/
def dbC1 : DB :=
  { tournaments := [{ id := 1, gameId := 1, teamSize := 3, isActive := true }],
    gameAccounts := [{ id := 1, userId := 1, gameId := 1, active := true },
                     { id := 2, userId := 2, gameId := 1, active := true }],
    teams := [{ id := 1, tournamentId := 1, teamName := "Alpha", status := TeamStatus.invalid }],
    members := [{ id := 1, gameAccountId := 1, teamId := 1, isLeader := true, order := 0 }],
    invites := [{ id := 10, userId := 2, teamId := 1, status := InviteStatus.pending }] }

/-- A two-member team (leader user 1, member user 2) in an open tournament. -/
def dbC2 : DB :=
  { tournaments := [{ id := 1, gameId := 1, teamSize := 3, isActive := true }],
    gameAccounts := [{ id := 1, userId := 1, gameId := 1, active := true },
                     { id := 2, userId := 2, gameId := 1, active := true }],
    teams := [{ id := 1, tournamentId := 1, teamName := "Alpha", status := TeamStatus.invalid }],
    members := [{ id := 1, gameAccountId := 1, teamId := 1, isLeader := true, order := 0 },
                { id := 2, gameAccountId := 2, teamId := 1, isLeader := false, order := 1 }],
    invites := [] }

/-- dbC2 after the leader kicked their own game account: the team is left
with one member and no leader. -/
def dbC2kicked : DB :=
  { dbC2 with members := [{ id := 2, gameAccountId := 2, teamId := 1, isLeader := false, order := 1 }] }

/-- A team with only its leader and a pending invite (id 30) to user 2, who
owns no game account; the tournament is open. -/
def dbC2w : DB :=
  { tournaments := [{ id := 1, gameId := 1, teamSize := 3, isActive := true }],
    gameAccounts := [{ id := 1, userId := 1, gameId := 1, active := true }],
    teams := [{ id := 1, tournamentId := 1, teamName := "Alpha", status := TeamStatus.invalid }],
    members := [{ id := 1, gameAccountId := 1, teamId := 1, isLeader := true, order := 0 }],
    invites := [{ id := 30, userId := 2, teamId := 1, status := InviteStatus.pending }] }

/-- dbC2w after user 2 rejected invite 30. -/
def dbC2w2 : DB :=
  { dbC2w with invites := [{ id := 30, userId := 2, teamId := 1, status := InviteStatus.rejected }] }

/-- A full team: size 2 with leader (user 1) and member (user 2), plus a
pending invite (id 10) to user 3, who owns a matching active account. -/
def dbC3 : DB :=
  { tournaments := [{ id := 1, gameId := 1, teamSize := 2, isActive := true }],
    gameAccounts := [{ id := 1, userId := 1, gameId := 1, active := true },
                     { id := 2, userId := 2, gameId := 1, active := true },
                     { id := 3, userId := 3, gameId := 1, active := true }],
    teams := [{ id := 1, tournamentId := 1, teamName := "Alpha", status := TeamStatus.valid }],
    members := [{ id := 1, gameAccountId := 1, teamId := 1, isLeader := true, order := 0 },
                { id := 2, gameAccountId := 2, teamId := 1, isLeader := false, order := 1 }],
    invites := [{ id := 10, userId := 3, teamId := 1, status := InviteStatus.pending }] }

def invC3 : Invite := { id := 10, userId := 3, teamId := 1, status := InviteStatus.pending }

def teamC3 : Team := { id := 1, tournamentId := 1, teamName := "Alpha", status := TeamStatus.valid }

def tC3 : Tournament := { id := 1, gameId := 1, teamSize := 2, isActive := true }

/-- A fresh state for team creation: an open tournament and an active,
matching game account of user 1; no team exists yet. -/
def dbC4 : DB :=
  { tournaments := [{ id := 1, gameId := 1, teamSize := 3, isActive := true }],
    gameAccounts := [{ id := 1, userId := 1, gameId := 1, active := true }],
    teams := [], members := [], invites := [] }

/-- A FULL team (size 2: leader user 1 and member user 3) of an open
tournament, carrying an accepted invite (id 20) for user 2, whose member
row is gone (the leader kicked game account 2 earlier; kick_member never
touches invites).  The pending re-validation at save time will find the
team at capacity. -/
def dbC5 : DB :=
  { tournaments := [{ id := 1, gameId := 1, teamSize := 2, isActive := true }],
    gameAccounts := [{ id := 1, userId := 1, gameId := 1, active := true },
                     { id := 2, userId := 2, gameId := 1, active := true },
                     { id := 3, userId := 3, gameId := 1, active := true }],
    teams := [{ id := 1, tournamentId := 1, teamName := "Alpha", status := TeamStatus.valid }],
    members := [{ id := 1, gameAccountId := 1, teamId := 1, isLeader := true, order := 0 },
                { id := 3, gameAccountId := 3, teamId := 1, isLeader := false, order := 1 }],
    invites := [{ id := 20, userId := 2, teamId := 1, status := InviteStatus.accepted }] }

/-- A CLOSED tournament (the annotation would say inactive) of size 3 whose
team holds leader user 1 and member user 2, with an accepted invite (id 20)
for user 2: the regular cancellation scenario.  The closedness is
irrelevant to the persistence paths. -/
def dbC5w : DB :=
  { tournaments := [{ id := 1, gameId := 1, teamSize := 3, isActive := false }],
    gameAccounts := [{ id := 1, userId := 1, gameId := 1, active := true },
                     { id := 2, userId := 2, gameId := 1, active := true }],
    teams := [{ id := 1, tournamentId := 1, teamName := "Alpha", status := TeamStatus.invalid }],
    members := [{ id := 1, gameAccountId := 1, teamId := 1, isLeader := true, order := 0 },
                { id := 2, gameAccountId := 2, teamId := 1, isLeader := false, order := 1 }],
    invites := [{ id := 20, userId := 2, teamId := 1, status := InviteStatus.accepted }] }

def invC5 : Invite := { id := 20, userId := 2, teamId := 1, status := InviteStatus.accepted }

def teamC5 : Team := { id := 1, tournamentId := 1, teamName := "Alpha", status := TeamStatus.invalid }

def tC5 : Tournament := { id := 1, gameId := 1, teamSize := 3, isActive := false }

/-- A FULL team (size 2: leader user 1, member user 2) of an open
tournament, carrying a pending invite (id 30) for user 3: the capacity
re-check of clean fires on the rejection write. -/
def dbC6 : DB :=
  { tournaments := [{ id := 1, gameId := 1, teamSize := 2, isActive := true }],
    gameAccounts := [{ id := 1, userId := 1, gameId := 1, active := true },
                     { id := 2, userId := 2, gameId := 1, active := true }],
    teams := [{ id := 1, tournamentId := 1, teamName := "Alpha", status := TeamStatus.valid }],
    members := [{ id := 1, gameAccountId := 1, teamId := 1, isLeader := true, order := 0 },
                { id := 2, gameAccountId := 2, teamId := 1, isLeader := false, order := 1 }],
    invites := [{ id := 30, userId := 3, teamId := 1, status := InviteStatus.pending }] }

def invC6full : Invite := { id := 30, userId := 3, teamId := 1, status := InviteStatus.pending }

def teamC6full : Team := { id := 1, tournamentId := 1, teamName := "Alpha", status := TeamStatus.valid }

def tC6full : Tournament := { id := 1, gameId := 1, teamSize := 2, isActive := true }

/-- A CLOSED tournament (size 3) whose team holds only the leader, with a
pending invite (id 30) for user 2, who owns no game account: rejection
succeeds although the tournament is closed. -/
def dbC6w : DB :=
  { tournaments := [{ id := 1, gameId := 1, teamSize := 3, isActive := false }],
    gameAccounts := [{ id := 1, userId := 1, gameId := 1, active := true }],
    teams := [{ id := 1, tournamentId := 1, teamName := "Alpha", status := TeamStatus.invalid }],
    members := [{ id := 1, gameAccountId := 1, teamId := 1, isLeader := true, order := 0 }],
    invites := [{ id := 30, userId := 2, teamId := 1, status := InviteStatus.pending }] }

def invC6 : Invite := { id := 30, userId := 2, teamId := 1, status := InviteStatus.pending }

def teamC6 : Team := { id := 1, tournamentId := 1, teamName := "Alpha", status := TeamStatus.invalid }

def tC6 : Tournament := { id := 1, gameId := 1, teamSize := 3, isActive := false }

/-- A fresh pending invite for user 3 on the team of the CLOSED tournament
dbC6w: persisting it commits, showing the openness re-check never fires. -/
def invC10c : Invite := { id := 31, userId := 3, teamId := 1, status := InviteStatus.pending }

/-- A team with only its leader (user 1) and an already REJECTED invite
(id 40) for user 2, who owns no game account; the tournament is open. -/
def dbC7 : DB :=
  { tournaments := [{ id := 1, gameId := 1, teamSize := 3, isActive := true }],
    gameAccounts := [{ id := 1, userId := 1, gameId := 1, active := true }],
    teams := [{ id := 1, tournamentId := 1, teamName := "Alpha", status := TeamStatus.invalid }],
    members := [{ id := 1, gameAccountId := 1, teamId := 1, isLeader := true, order := 0 }],
    invites := [{ id := 40, userId := 2, teamId := 1, status := InviteStatus.rejected }] }

def teamC7 : Team := { id := 1, tournamentId := 1, teamName := "Alpha", status := TeamStatus.invalid }

def rInvC7 : Invite := { id := 40, userId := 2, teamId := 1, status := InviteStatus.rejected }

def tC7 : Tournament := { id := 1, gameId := 1, teamSize := 3, isActive := true }

/-- dbC7 after a fresh invite to the same (user 2, team 1) pair was created:
the new pending row (fresh id 41) coexists with the rejected one. -/
def dbC7b : DB :=
  { dbC7 with invites := [{ id := 41, userId := 2, teamId := 1, status := InviteStatus.pending },
                          { id := 40, userId := 2, teamId := 1, status := InviteStatus.rejected }] }

/-- Two teams in the same tournament; user 2 already belongs to team 2
through game account 2, and the leader of team 1 (user 1) tries to invite
user 2 to team 1. -/
def dbC8 : DB :=
  { tournaments := [{ id := 1, gameId := 1, teamSize := 3, isActive := true }],
    gameAccounts := [{ id := 1, userId := 1, gameId := 1, active := true },
                     { id := 2, userId := 2, gameId := 1, active := true }],
    teams := [{ id := 1, tournamentId := 1, teamName := "X", status := TeamStatus.invalid },
              { id := 2, tournamentId := 1, teamName := "Y", status := TeamStatus.invalid }],
    members := [{ id := 1, gameAccountId := 1, teamId := 1, isLeader := true, order := 0 },
                { id := 2, gameAccountId := 2, teamId := 2, isLeader := true, order := 0 }],
    invites := [] }

def teamC8 : Team := { id := 1, tournamentId := 1, teamName := "X", status := TeamStatus.invalid }

/-- A team with leader (user 1) and member (user 2) plus a pending invite
(id 60) for user 3 referencing the team, to exhibit the cascade. -/
def dbC9 : DB :=
  { tournaments := [{ id := 1, gameId := 1, teamSize := 3, isActive := true }],
    gameAccounts := [{ id := 1, userId := 1, gameId := 1, active := true },
                     { id := 2, userId := 2, gameId := 1, active := true }],
    teams := [{ id := 1, tournamentId := 1, teamName := "Alpha", status := TeamStatus.invalid }],
    members := [{ id := 1, gameAccountId := 1, teamId := 1, isLeader := true, order := 0 },
                { id := 2, gameAccountId := 2, teamId := 1, isLeader := false, order := 1 }],
    invites := [{ id := 60, userId := 3, teamId := 1, status := InviteStatus.pending }] }

def teamC9 : Team := { id := 1, tournamentId := 1, teamName := "Alpha", status := TeamStatus.invalid }

/-- User 5 is a member of team 2 (tournament 1) through an INACTIVE game
account; a pending invite to user 5 for team 1 of the same tournament is
about to be persisted. -/
def dbC10 : DB :=
  { tournaments := [{ id := 1, gameId := 1, teamSize := 3, isActive := true }],
    gameAccounts := [{ id := 5, userId := 5, gameId := 1, active := false }],
    teams := [{ id := 1, tournamentId := 1, teamName := "X", status := TeamStatus.invalid },
              { id := 2, tournamentId := 1, teamName := "Y", status := TeamStatus.invalid }],
    members := [{ id := 1, gameAccountId := 5, teamId := 2, isLeader := true, order := 0 }],
    invites := [] }

def invC10 : Invite := { id := 50, userId := 5, teamId := 1, status := InviteStatus.pending }

/-! ## TeamMember.full_clean can never succeed -/

/-- TeamMember.clean always raises: each validation branch raises, and the
fall-through reaches the unbound name is_leader. -/
theorem teamMemberClean_not_ok (db : DB) (m : TeamMember) (u : Unit) :
    teamMemberClean db m ≠ Except.ok u := by
  unfold teamMemberClean
  (repeat' split) <;> intro h <;> exact Except.noConfusion h

/-- TournamentInvite.accept never commits: it always ends in an exception
(at the latest the NameError inside TeamMember.clean). -/
theorem inviteAccept_not_ok (db : DB) (i g : Nat) (db2 : DB) :
    inviteAccept db i g ≠ Except.ok db2 := by
  unfold inviteAccept
  (repeat' split) <;> intro h <;>
    first
    | exact Except.noConfusion h
    | exact absurd (by assumption) (teamMemberClean_not_ok _ _ _)

/-- api_accept_invite never commits, for the same reason. -/
theorem apiAcceptInvite_not_ok (db : DB) (r i g : Nat) (db2 : DB) :
    apiAcceptInvite db r i g ≠ Except.ok db2 := by
  unfold apiAcceptInvite
  (repeat' split) <;> intro h <;>
    first
    | exact Except.noConfusion h
    | exact absurd (by assumption) (teamMemberClean_not_ok _ _ _)

/-- Team creation never commits: the leader row always fails full_clean and
the view then deletes the fresh team again. -/
theorem tryCreateTeam_not_ok (db : DB) (r tid : Nat) (nm : String) (g : Nat) (db2 : DB) :
    tryCreateTeam db r tid nm g ≠ Except.ok db2 := by
  unfold tryCreateTeam
  (repeat' split) <;> intro h <;>
    first
    | exact Except.noConfusion h
    | exact absurd (by assumption) (teamMemberClean_not_ok _ _ _)

/-! ## Freshness of generated ids -/

theorem le_foldr_max (x : Nat) (l : List Nat) (hx : x ∈ l) :
    x ≤ l.foldr (fun a b => max a b) 0 := by
  induction l with
  | nil => cases hx
  | cons a l ih =>
    rcases List.mem_cons.mp hx with h | h
    · subst h; exact Nat.le_max_left _ _
    · exact Nat.le_trans (ih h) (Nat.le_max_right _ _)

theorem mem_lt_freshId (x : Nat) (l : List Nat) (hx : x ∈ l) : x < freshId l :=
  Nat.lt_succ_of_le (le_foldr_max x l hx)

theorem invite_id_ne_fresh (db : DB) (v : Invite) (hv : v ∈ db.invites) :
    v.id ≠ freshInviteId db := by
  unfold freshInviteId
  exact Nat.ne_of_lt (mem_lt_freshId v.id _ (List.mem_map.mpr ⟨v, hv, rfl⟩))

/-! ## pendingUnique machinery -/

theorem pendingClash_left (a b : Invite) (h : a.status ≠ InviteStatus.pending) :
    pendingClash a b = false := by
  unfold pendingClash
  simp [h]

theorem pendingClash_right (a b : Invite) (h : b.status ≠ InviteStatus.pending) :
    pendingClash a b = false := by
  unfold pendingClash
  simp [h]

theorem pairwiseNoClash_filter (p : Invite → Bool) (l : List Invite)
    (h : pairwiseNoClash l = true) : pairwiseNoClash (l.filter p) = true := by
  induction l with
  | nil => simpa using h
  | cons v rest ih =>
    simp only [pairwiseNoClash, Bool.and_eq_true, List.all_eq_true] at h
    obtain ⟨hall, hrest⟩ := h
    by_cases hp : p v = true
    · rw [List.filter_cons_of_pos hp]
      simp only [pairwiseNoClash, Bool.and_eq_true, List.all_eq_true]
      exact ⟨fun w hw => hall w (List.mem_of_mem_filter hw), ih hrest⟩
    · rw [List.filter_cons_of_neg (by simpa using hp)]
      exact ih hrest

theorem pairwiseNoClash_map (f : Invite → Invite)
    (hf : ∀ v, f v = v ∨ (f v).status ≠ InviteStatus.pending)
    (l : List Invite) (h : pairwiseNoClash l = true) :
    pairwiseNoClash (l.map f) = true := by
  induction l with
  | nil => simpa using h
  | cons v rest ih =>
    simp only [pairwiseNoClash, Bool.and_eq_true, List.all_eq_true] at h
    obtain ⟨hall, hrest⟩ := h
    simp only [List.map_cons, pairwiseNoClash, Bool.and_eq_true, List.all_eq_true]
    refine ⟨?_, ih hrest⟩
    intro w hw
    obtain ⟨w0, hw0, rfl⟩ := List.mem_map.mp hw
    rcases hf v with hv | hv
    · rw [hv]
      rcases hf w0 with hw0f | hw0f
      · rw [hw0f]; exact hall w0 hw0
      · simp [pendingClash_right _ _ hw0f]
    · simp [pendingClash_left _ _ hv]

/-- Writing a row whose saved status is not pending preserves the
uniqueness of pending invites. -/
theorem pendingUnique_upsert_nonpending (db : DB) (inv : Invite)
    (hnp : inv.status ≠ InviteStatus.pending) (hpu : pendingUnique db = true) :
    pendingUnique (upsertInvite db inv) = true := by
  unfold pendingUnique upsertInvite at *
  split
  · exact pairwiseNoClash_map _ (fun v => by
      by_cases hid : (v.id == inv.id) = true
      · right; simp only [hid, if_true]; exact hnp
      · left
        rw [Bool.not_eq_true] at hid
        rw [if_neg (by simp [hid])]) _ hpu
  · simp only [pairwiseNoClash, Bool.and_eq_true, List.all_eq_true]
    refine ⟨fun w _ => ?_, hpu⟩
    simp [pendingClash_left _ _ hnp]

/-- A fresh pending row that passed the conditional unique constraint can be
prepended without breaking uniqueness. -/
theorem pendingUnique_insert_checked (db : DB) (inv : Invite)
    (hid : inv.id = freshInviteId db)
    (hconf : invitePendingConflict db inv = false)
    (hpu : pendingUnique db = true) :
    pairwiseNoClash (inv :: db.invites) = true := by
  simp only [pairwiseNoClash, Bool.and_eq_true, List.all_eq_true]
  refine ⟨?_, hpu⟩
  intro w hw
  have hne : w.id ≠ inv.id := by
    rw [hid]
    exact invite_id_ne_fresh db w hw
  by_cases hps : inv.status = InviteStatus.pending
  · unfold invitePendingConflict at hconf
    rw [Bool.and_eq_false_iff] at hconf
    rcases hconf with hconf | hconf
    · rw [beq_eq_false_iff_ne] at hconf
      exact absurd hps hconf
    · rw [List.any_eq_false] at hconf
      have hcw := hconf w hw
      simp only [Bool.and_eq_true, bne_iff_ne, beq_iff_eq, not_and] at hcw
      rw [Bool.not_eq_true']
      unfold pendingClash
      by_cases hu : inv.userId = w.userId
      · by_cases ht2 : inv.teamId = w.teamId
        · by_cases hwps : w.status = InviteStatus.pending
          · exact absurd hwps (hcw ⟨⟨hne, hu.symm⟩, ht2.symm⟩)
          · simp [beq_eq_false_iff_ne.mpr hwps]
        · simp [beq_eq_false_iff_ne.mpr ht2]
      · simp [beq_eq_false_iff_ne.mpr hu]
  · simp [pendingClash_left _ _ hps]

theorem recompute_invites (db : DB) (tid : Nat) :
    (recomputeTeamStatus db tid).invites = db.invites := by
  unfold recomputeTeamStatus
  (repeat' split) <;> rfl

theorem recompute_members (db : DB) (tid : Nat) :
    (recomputeTeamStatus db tid).members = db.members := by
  unfold recomputeTeamStatus
  (repeat' split) <;> rfl

theorem upsert_members (db : DB) (inv : Invite) :
    (upsertInvite db inv).members = db.members := by
  unfold upsertInvite
  split <;> rfl

theorem upsert_teams (db : DB) (inv : Invite) :
    (upsertInvite db inv).teams = db.teams := by
  unfold upsertInvite
  split <;> rfl

/-! ## pendingUnique is preserved by every committed operation -/

theorem pendingUnique_rejectView (db db2 : DB) (r i : Nat)
    (h : apiRejectInvite db r i = Except.ok db2) (hpu : pendingUnique db = true) :
    pendingUnique db2 = true := by
  unfold apiRejectInvite at h
  (repeat' split at h) <;> try exact absurd h (by intro hh; exact Except.noConfusion hh)
  · unfold inviteSave at h
    split at h
    · exact absurd h (by intro hh; exact Except.noConfusion hh)
    · cases h
      exact pendingUnique_upsert_nonpending _ _ (by intro hh; exact InviteStatus.noConfusion hh) hpu

theorem pendingUnique_cancelView (db db2 : DB) (r i : Nat)
    (h : apiCancelInvite db r i = Except.ok db2) (hpu : pendingUnique db = true) :
    pendingUnique db2 = true := by
  unfold apiCancelInvite at h
  split at h
  · exact absurd h (by intro hh; exact Except.noConfusion hh)
  · split at h
    · exact absurd h (by intro hh; exact Except.noConfusion hh)
    · split at h
      · cases h
        exact pairwiseNoClash_filter _ _ hpu
      · split at h
        · split at h
          · exact absurd h (by intro hh; exact Except.noConfusion hh)
          · rename_i db2x heq
            cases h
            unfold pendingUnique
            rw [recompute_invites]
            unfold inviteSave at heq
            split at heq
            · exact absurd heq (by intro hh; exact Except.noConfusion hh)
            · cases heq
              exact pendingUnique_upsert_nonpending _ _
                (by intro hh; exact InviteStatus.noConfusion hh) hpu
        · exact absurd h (by intro hh; exact Except.noConfusion hh)

theorem pendingUnique_leave (db db2 : DB) (r t : Nat)
    (h : leaveTeam db r t = Except.ok db2) (hpu : pendingUnique db = true) :
    pendingUnique db2 = true := by
  unfold leaveTeam at h
  (repeat' split at h) <;> try exact absurd h (by intro hh; exact Except.noConfusion hh)
  · cases h
    exact pairwiseNoClash_filter _ _ hpu
  · cases h
    exact hpu

theorem pendingUnique_kick (db db2 : DB) (r t g : Nat)
    (h : kickMember db r t g = Except.ok db2) (hpu : pendingUnique db = true) :
    pendingUnique db2 = true := by
  unfold kickMember at h
  (repeat' split at h) <;> try exact absurd h (by intro hh; exact Except.noConfusion hh)
  · cases h
    exact hpu

theorem invites_any_fresh_false (db : DB) :
    (db.invites.any (fun v => v.id == freshInviteId db)) = false := by
  rw [List.any_eq_false]
  intro v hv
  simpa using invite_id_ne_fresh db v hv

theorem pendingUnique_createInvite (db db2 : DB) (r u t : Nat)
    (h : createInvite db r u t = Except.ok db2) (hpu : pendingUnique db = true) :
    pendingUnique db2 = true := by
  unfold createInvite at h
  (repeat' split at h) <;> try exact absurd h (by intro hh; exact Except.noConfusion hh)
  · unfold inviteSave at h
    split at h
    · exact absurd h (by intro hh; exact Except.noConfusion hh)
    · rename_i heq
      cases h
      unfold inviteFullClean at heq
      split at heq
      · exact absurd heq (by intro hh; exact Except.noConfusion hh)
      · split at heq
        · exact absurd heq (by intro hh; exact Except.noConfusion hh)
        · rename_i hconf
          unfold pendingUnique upsertInvite
          simp only [invites_any_fresh_false db, if_false]
          exact pendingUnique_insert_checked db _ rfl (by simpa using hconf) hpu

/-! ## leaderInvariant machinery -/

theorem filter_swap {α : Type} (p q : α → Bool) (l : List α) :
    (l.filter p).filter q = (l.filter q).filter p := by
  rw [List.filter_filter, List.filter_filter]
  exact List.filter_congr (fun a _ => Bool.and_comm _ _)

theorem membersLeaderOk_filter (ms : List TeamMember) (tid : Nat) (p : TeamMember → Bool)
    (hkeep : ∀ m ∈ ms, m.isLeader = true → p m = true)
    (h : membersLeaderOk ms tid = true) :
    membersLeaderOk (ms.filter p) tid = true := by
  unfold membersLeaderOk at h ⊢
  rw [filter_swap p (fun m => m.teamId == tid) ms]
  rw [Bool.or_eq_true] at h
  rcases h with h | h
  · rw [List.isEmpty_eq_true] at h
    rw [Bool.or_eq_true]
    left
    rw [List.isEmpty_eq_true, h]
    rfl
  · rw [Bool.and_eq_true] at h
    obtain ⟨hlen, hall⟩ := h
    rw [Bool.or_eq_true]
    right
    rw [Bool.and_eq_true]
    constructor
    · rw [filter_swap p (fun m => m.isLeader) (ms.filter (fun m => m.teamId == tid))]
      have heq : ((ms.filter (fun m => m.teamId == tid)).filter (fun m => m.isLeader)).filter p
          = (ms.filter (fun m => m.teamId == tid)).filter (fun m => m.isLeader) := by
        rw [List.filter_eq_self]
        intro a ha
        have ha2 : a ∈ ms := List.mem_of_mem_filter (List.mem_of_mem_filter ha)
        have hl : a.isLeader = true := by simpa using (List.mem_filter.mp ha).2
        exact hkeep a ha2 hl
      rw [heq]
      exact hlen
    · rw [List.all_eq_true] at hall ⊢
      intro m hm
      exact hall m (List.mem_of_mem_filter hm)

theorem leaderInvariant_filter (db : DB) (p : TeamMember → Bool)
    (hkeep : ∀ m ∈ db.members, m.isLeader = true → p m = true)
    (h : leaderInvariant db = true) :
    leaderInvariant { db with members := db.members.filter p } = true := by
  unfold leaderInvariant at h ⊢
  rw [List.all_eq_true] at h ⊢
  intro t ht
  exact membersLeaderOk_filter _ _ p hkeep (h t ht)

theorem leaderInvariant_upsert (db : DB) (inv : Invite) :
    leaderInvariant (upsertInvite db inv) = leaderInvariant db := by
  unfold upsertInvite
  split <;> rfl

theorem leaderInvariant_recompute (db : DB) (tid : Nat) (h : leaderInvariant db = true) :
    leaderInvariant (recomputeTeamStatus db tid) = true := by
  unfold recomputeTeamStatus
  (repeat' split) <;> try exact h
  all_goals
    unfold leaderInvariant at h ⊢
    rw [List.all_eq_true] at h ⊢
    intro t ht
    obtain ⟨t0, ht0, rfl⟩ := List.mem_map.mp ht
    by_cases hid : (t0.id == tid) = true
    · rw [if_pos hid]
      exact h t0 ht0
    · rw [if_neg hid]
      exact h t0 ht0

theorem membersLeaderOk_erase_other (ms : List TeamMember) (tid t : Nat) (hne : t ≠ tid) :
    membersLeaderOk (ms.filter (fun m => m.teamId != tid)) t = membersLeaderOk ms t := by
  unfold membersLeaderOk
  have hsimp : (ms.filter (fun m => m.teamId != tid)).filter (fun m => m.teamId == t)
      = ms.filter (fun m => m.teamId == t) := by
    rw [List.filter_filter]
    apply List.filter_congr
    intro m _
    by_cases hm : (m.teamId == t) = true
    · have hnt : (m.teamId != tid) = true := by
        rw [bne_iff_ne, beq_iff_eq.mp hm]
        exact hne
      rw [hm, hnt]
      rfl
    · rw [Bool.not_eq_true] at hm
      rw [hm]
      rfl
  rw [hsimp]

theorem leaderInvariant_cascade (db : DB) (tid : Nat) (h : leaderInvariant db = true) :
    leaderInvariant (deleteTeamCascade db tid) = true := by
  unfold leaderInvariant at h ⊢
  unfold deleteTeamCascade
  rw [List.all_eq_true] at h ⊢
  intro t ht
  have htmem := List.mem_of_mem_filter ht
  have htid : t.id ≠ tid := by
    have := (List.mem_filter.mp ht).2
    simpa using this
  rw [membersLeaderOk_erase_other _ _ _ htid]
  exact h t htmem

/-! ## leaderInvariant is preserved by every committed safe operation -/

theorem leaderInvariant_rejectView (db db2 : DB) (r i : Nat)
    (h : apiRejectInvite db r i = Except.ok db2) (hli : leaderInvariant db = true) :
    leaderInvariant db2 = true := by
  unfold apiRejectInvite at h
  (repeat' split at h) <;> try exact absurd h (by intro hh; exact Except.noConfusion hh)
  · unfold inviteSave at h
    split at h
    · exact absurd h (by intro hh; exact Except.noConfusion hh)
    · cases h
      rw [leaderInvariant_upsert]
      exact hli

theorem leaderInvariant_createInvite (db db2 : DB) (r u t : Nat)
    (h : createInvite db r u t = Except.ok db2) (hli : leaderInvariant db = true) :
    leaderInvariant db2 = true := by
  unfold createInvite at h
  (repeat' split at h) <;> try exact absurd h (by intro hh; exact Except.noConfusion hh)
  · unfold inviteSave at h
    split at h
    · exact absurd h (by intro hh; exact Except.noConfusion hh)
    · cases h
      rw [leaderInvariant_upsert]
      exact hli

theorem leaderInvariant_leave (db db2 : DB) (r t : Nat)
    (h : leaveTeam db r t = Except.ok db2) (hli : leaderInvariant db = true) :
    leaderInvariant db2 = true := by
  unfold leaveTeam at h
  split at h
  · exact absurd h (by intro hh; exact Except.noConfusion hh)
  · split at h
    · exact absurd h (by intro hh; exact Except.noConfusion hh)
    · split at h
      · cases h
        exact leaderInvariant_cascade db t hli
      · rename_i hnl
        cases h
        unfold removeUserMembers
        apply leaderInvariant_filter db _ _ hli
        intro m hm hleader
        rw [Bool.not_eq_true', Bool.and_eq_false_iff]
        by_cases hA : (m.teamId == t) = true
        · right
          by_cases hG : gaUserIs db m.gameAccountId r = true
          · exfalso
            apply hnl
            unfold isUserTeamLeader
            rw [List.any_eq_true]
            refine ⟨m, hm, ?_⟩
            rw [hA, hleader, hG]
            rfl
          · rw [Bool.not_eq_true] at hG
            exact hG
        · left
          rw [Bool.not_eq_true] at hA
          exact hA

theorem leaderInvariant_kick (db db2 : DB) (r t g : Nat)
    (hsafe : kickRemovesNoLeader db t g = true)
    (h : kickMember db r t g = Except.ok db2) (hli : leaderInvariant db = true) :
    leaderInvariant db2 = true := by
  unfold kickMember at h
  (repeat' split at h) <;> try exact absurd h (by intro hh; exact Except.noConfusion hh)
  · cases h
    apply leaderInvariant_filter db _ _ hli
    intro m hm hleader
    unfold kickRemovesNoLeader at hsafe
    rw [List.all_eq_true] at hsafe
    have hmn := hsafe m hm
    rw [Bool.not_eq_true', Bool.and_eq_false_iff] at hmn
    rw [Bool.not_eq_true']
    rcases hmn with hmn | hmn
    · exact hmn
    · rw [hleader] at hmn
      exact absurd hmn (by decide)

theorem leaderInvariant_cancelView (db db2 : DB) (r i : Nat) (inv : Invite)
    (hfind : findInvite db i = some inv)
    (hsafe : inv.status = InviteStatus.accepted →
      cancelRemovesNoLeader db inv.teamId inv.userId = true)
    (h : apiCancelInvite db r i = Except.ok db2) (hli : leaderInvariant db = true) :
    leaderInvariant db2 = true := by
  unfold apiCancelInvite at h
  split at h
  · exact absurd h (by intro hh; exact Except.noConfusion hh)
  · rename_i inv2 heq2
    have hinv : inv2 = inv := (Option.some.inj (hfind.symm.trans heq2)).symm
    subst hinv
    split at h
    · exact absurd h (by intro hh; exact Except.noConfusion hh)
    · split at h
      · cases h
        exact hli
      · split at h
        · rename_i hacc
          split at h
          · exact absurd h (by intro hh; exact Except.noConfusion hh)
          · rename_i db2x heqS
            cases h
            apply leaderInvariant_recompute
            unfold inviteSave at heqS
            split at heqS
            · exact absurd heqS (by intro hh; exact Except.noConfusion hh)
            · cases heqS
              rw [leaderInvariant_upsert]
              unfold removeUserMembers
              apply leaderInvariant_filter db _ _ hli
              intro m hm hleader
              have hsafe2 := hsafe (beq_iff_eq.mp hacc)
              unfold cancelRemovesNoLeader at hsafe2
              rw [List.all_eq_true] at hsafe2
              have hmn := hsafe2 m hm
              rw [Bool.not_eq_true', Bool.and_eq_false_iff] at hmn
              rw [Bool.not_eq_true']
              rcases hmn with hmn | hmn
              · exact hmn
              · rw [hleader] at hmn
                exact absurd hmn (by decide)
        · exact absurd h (by intro hh; exact Except.noConfusion hh)

theorem leaderInvariant_safeStep (db db2 : DB) (h : SafeStep db db2)
    (hli : leaderInvariant db = true) : leaderInvariant db2 = true := by
  cases h with
  | createTeam r tid nm g h => exact absurd h (tryCreateTeam_not_ok _ _ _ _ _ _)
  | acceptModel i g h => exact absurd h (inviteAccept_not_ok _ _ _ _)
  | acceptView r i g h => exact absurd h (apiAcceptInvite_not_ok _ _ _ _ _)
  | rejectView r i h => exact leaderInvariant_rejectView _ _ _ _ h hli
  | cancelView r i inv hfind hsafe h => exact leaderInvariant_cancelView _ _ _ _ _ hfind hsafe h hli
  | leave r t h => exact leaderInvariant_leave _ _ _ _ h hli
  | kick r t g hsafe h => exact leaderInvariant_kick _ _ _ _ _ hsafe h hli
  | invite r u t h => exact leaderInvariant_createInvite _ _ _ _ _ h hli

theorem pendingUnique_step (db db2 : DB) (h : Step db db2)
    (hpu : pendingUnique db = true) : pendingUnique db2 = true := by
  cases h with
  | createTeam r tid nm g h => exact absurd h (tryCreateTeam_not_ok _ _ _ _ _ _)
  | acceptModel i g h => exact absurd h (inviteAccept_not_ok _ _ _ _)
  | acceptView r i g h => exact absurd h (apiAcceptInvite_not_ok _ _ _ _ _)
  | rejectView r i h => exact pendingUnique_rejectView _ _ _ _ h hpu
  | cancelView r i h => exact pendingUnique_cancelView _ _ _ _ h hpu
  | leave r t h => exact pendingUnique_leave _ _ _ _ h hpu
  | kick r t g h => exact pendingUnique_kick _ _ _ _ _ h hpu
  | invite r u t h => exact pendingUnique_createInvite _ _ _ _ _ h hpu

theorem pendingUnique_chain (a b : DB) (h : Chain Step a b)
    (hpu : pendingUnique a = true) : pendingUnique b = true := by
  induction h with
  | refl => exact hpu
  | tail hab hbc ih => exact pendingUnique_step _ _ hbc ih

theorem leaderInvariant_chainSafe (a b : DB) (h : Chain SafeStep a b)
    (hli : leaderInvariant a = true) : leaderInvariant b = true := by
  induction h with
  | refl => exact hli
  | tail hab hbc ih => exact leaderInvariant_safeStep _ _ hbc ih

/-! ## Further helper lemmas -/

theorem leader_in_team (db : DB) (u t : Nat) (h : isUserTeamLeader db u t = true) :
    isUserInTeam db u t = true := by
  unfold isUserTeamLeader at h
  unfold isUserInTeam
  rw [List.any_eq_true] at h ⊢
  obtain ⟨m, hm, hp⟩ := h
  rw [Bool.and_eq_true, Bool.and_eq_true] at hp
  refine ⟨m, hm, ?_⟩
  rw [Bool.and_eq_true]
  exact ⟨hp.1.1, hp.2⟩

theorem memberViaActive_le_any (db : DB) (uid toid : Nat)
    (h : userMemberViaActiveGA db uid toid = true) : userMemberViaAnyGA db uid toid = true := by
  unfold userMemberViaActiveGA at h
  unfold userMemberViaAnyGA
  rw [List.any_eq_true] at h ⊢
  obtain ⟨m, hm, hp⟩ := h
  have hp2 := (Bool.and_eq_true _ _).mp hp
  refine ⟨m, hm, ?_⟩
  rw [Bool.and_eq_true]
  refine ⟨?_, hp2.2⟩
  have hga := hp2.1
  unfold gaUserIs
  cases hfg : findGA db m.gameAccountId with
  | none =>
    rw [hfg] at hga
    simp at hga
  | some g =>
    rw [hfg] at hga
    have := ((Bool.and_eq_true _ _).mp hga).1
    exact this

theorem find?_upsert (l : List Invite) (i : Nat) (inv s : Invite)
    (hfind : l.find? (fun v => v.id == i) = some inv) (hs : s.id = inv.id) :
    (l.map (fun v => if v.id == s.id then s else v)).find? (fun v => v.id == i) = some s := by
  have hpi : (inv.id == i) = true := @List.find?_some Invite (fun v => v.id == i) inv l hfind
  have hii : inv.id = i := beq_iff_eq.mp hpi
  induction l with
  | nil => exact absurd hfind (by simp)
  | cons a rest ih =>
    rw [List.find?_cons] at hfind
    rw [List.map_cons, List.find?_cons]
    by_cases ha : (a.id == i) = true
    · rw [ha] at hfind
      have hai : a = inv := Option.some.inj hfind
      subst hai
      have hhead : (a.id == s.id) = true := beq_iff_eq.mpr (by rw [hs])
      rw [if_pos hhead]
      have hsi : (s.id == i) = true := beq_iff_eq.mpr (by rw [hs, hii])
      rw [hsi]
    · rw [Bool.not_eq_true] at ha
      rw [ha] at hfind
      have hhead : ¬((a.id == s.id) = true) := by
        rw [beq_iff_eq, hs, hii]
        exact fun hc => by rw [hc] at ha; simp at ha
      rw [if_neg hhead]
      rw [ha]
      exact ih hfind

theorem findInvite_upsert_self (db : DB) (i : Nat) (inv s : Invite)
    (hfind : findInvite db i = some inv) (hs : s.id = inv.id) :
    findInvite (upsertInvite db s) i = some s := by
  unfold upsertInvite
  have hmem : inv ∈ db.invites := List.mem_of_find?_eq_some hfind
  have hany : (db.invites.any (fun v => v.id == s.id)) = true := by
    rw [List.any_eq_true]
    exact ⟨inv, hmem, beq_iff_eq.mpr hs.symm⟩
  rw [if_pos hany]
  unfold findInvite
  exact find?_upsert db.invites i inv s hfind hs

/-! ## Claims -/

/-- C1: the claim says that accepting a pending invite under all the
documented preconditions (open tournament, free slot, owned active matching
game account) succeeds, creates one non-leader TeamMember row and marks the
invite accepted.  The code cannot do this: TeamMember.clean reads the
unbound name is_leader (tournament_registration/models.py lines 127 and
130), so member.full_clean() raises NameError on every well-formed input,
the surrounding transaction rolls back, and acceptance never commits.  The
first conjunct evaluates the model accept on the concrete healthy state
dbC1; the others show no accept call (model or view) ever returns ok. -/
theorem claim_C1 :
    inviteAccept dbC1 10 2 = Except.error Err.nameErrorIsLeader ∧
    apiAcceptInvite dbC1 2 10 2 = Except.error Err.nameErrorIsLeader ∧
    (∀ (db : DB) (i g : Nat), resultOk (inviteAccept db i g) = false) ∧
    (∀ (db : DB) (r i g : Nat), resultOk (apiAcceptInvite db r i g) = false) := by
  refine ⟨by decide, by decide, ?_, ?_⟩
  · intro db i g
    cases h : inviteAccept db i g with
    | error e => rfl
    | ok d => exact absurd h (inviteAccept_not_ok db i g d)
  · intro db r i g
    cases h : apiAcceptInvite db r i g with
    | error e => rfl
    | ok d => exact absurd h (apiAcceptInvite_not_ok db r i g d)

/-- C2 counterexample: the kick operation is one of the listed core
operations, yet from the committed state dbC2 (which satisfies the
single-leader invariant) the leader of team 1 can kick their own game
account; the resulting committed state dbC2kicked has a non-empty team 1
with no leader, so the invariant does not hold in every state reachable by
the core operations. -/
theorem claim_C2_counterexample :
    leaderInvariant dbC2 = true ∧ Chain Step dbC2 dbC2kicked ∧
    leaderInvariant dbC2kicked = false :=
  ⟨by decide, Chain.tail (Chain.refl dbC2) (Step.kick 1 1 1 (by decide)), by decide⟩

/-- C2 amended: in every committed state reachable by the core operations
from a state satisfying the invariant, every team with at least one member
has exactly one leader member with order 0 — provided no kick names a game
account backing a leader row and no cancellation of an accepted invite
targets the user owning a leader row (SafeStep); kick_member itself does
not rule the leader self-kick out. -/
theorem claim_C2_amended (s0 s : DB) (hli : leaderInvariant s0 = true)
    (hch : Chain SafeStep s0 s) : leaderInvariant s = true :=
  leaderInvariant_chainSafe s0 s hch hli

/-- C2 witness: one committed safe step (user 2 rejecting invite 30) from
the invariant-satisfying state dbC2w keeps the invariant. -/
theorem claim_C2_witness : leaderInvariant dbC2w = true ∧ leaderInvariant dbC2w2 = true :=
  ⟨by decide,
    claim_C2_amended dbC2w dbC2w2 (by decide)
      (Chain.tail (Chain.refl dbC2w) (SafeStep.rejectView 2 30 (by decide)))⟩

/-- C3: accepting a pending invite whose team is already at the capacity of
the tournament format fails with the capacity error and changes nothing:
the model accept raises before touching any row (given the tournament is
still open, since that check precedes the capacity check there), and the
JSON view answers the capacity error unconditionally; in both cases the
committed state is unchanged and the invite is still the same pending
row. -/
theorem claim_C3 (db : DB) (invId gaId : Nat) (inv : Invite) (team : Team) (t : Tournament)
    (hfind : findInvite db invId = some inv)
    (hp : inv.status = InviteStatus.pending)
    (hteam : findTeam db inv.teamId = some team)
    (ht : findTournament db team.tournamentId = some t)
    (hact : t.isActive = true)
    (hfull : t.teamSize ≤ memberCount db inv.teamId) :
    inviteAccept db invId gaId = Except.error Err.teamFull ∧
    applyResult db (inviteAccept db invId gaId) = db ∧
    apiAcceptInvite db inv.userId invId gaId = Except.error Err.teamFull ∧
    applyResult db (apiAcceptInvite db inv.userId invId gaId) = db := by
  have hcap : teamHasCapacity db inv.teamId t = false := by
    unfold teamHasCapacity
    rw [decide_eq_false_iff_not]
    exact Nat.not_lt.mpr hfull
  have hle : (decide (t.teamSize ≤ memberCount db inv.teamId)) = true := decide_eq_true hfull
  have h1 : inviteAccept db invId gaId = Except.error Err.teamFull := by
    simp [inviteAccept, hfind, hp, hteam, ht, isTournamentActiveFK, hact, hcap]
  have h3 : apiAcceptInvite db inv.userId invId gaId = Except.error Err.teamFull := by
    simp [apiAcceptInvite, hfind, hp, hteam, ht, hle]
    intro hh
    exact absurd hh (Nat.not_lt.mpr hfull)
  refine ⟨h1, ?_, h3, ?_⟩
  · rw [h1]
    rfl
  · rw [h3]
    rfl

/-- C3 witness: the concrete full team dbC3 (size 2, two members) with
pending invite 10 for user 3. -/
theorem claim_C3_witness :
    inviteAccept dbC3 10 3 = Except.error Err.teamFull ∧
    applyResult dbC3 (inviteAccept dbC3 10 3) = dbC3 ∧
    apiAcceptInvite dbC3 3 10 3 = Except.error Err.teamFull ∧
    applyResult dbC3 (apiAcceptInvite dbC3 3 10 3) = dbC3 :=
  claim_C3 dbC3 10 3 invC3 teamC3 tC3 (by decide) rfl (by decide) (by decide) rfl (by decide)

/-- C4: the claim says team creation writes the Team row and the leader
TeamMember row as one atomic unit.  In the code the member write always
fails: the leader row runs TeamMember.full_clean, which crashes on the
unbound name is_leader, the view deletes the freshly written team again and
re-raises — so no team-creation request ever commits anything.  The first
conjunct evaluates the concrete healthy request on dbC4 (it dies with the
NameError); the rest show creation never returns ok and, as the rollback
half of the claim states, the committed state is always unchanged. -/
theorem claim_C4 :
    tryCreateTeam dbC4 1 1 "Alpha" 1 = Except.error Err.nameErrorIsLeader ∧
    applyResult dbC4 (tryCreateTeam dbC4 1 1 "Alpha" 1) = dbC4 ∧
    (∀ (db : DB) (r tid : Nat) (nm : String) (g : Nat),
      resultOk (tryCreateTeam db r tid nm g) = false) := by
  refine ⟨by decide, by decide, ?_⟩
  intro db r tid nm g
  cases h : tryCreateTeam db r tid nm g with
  | error e => rfl
  | ok d => exact absurd h (tryCreateTeam_not_ok db r tid nm g d)

/-- C5 counterexample: the claim says cancellation of an accepted invite by
the leader takes effect regardless of other conditions.  On dbC5 the
invited user's member row is already gone (kicked earlier; kick never
touches invites) and the team has been refilled to capacity; the rejection
write runs the overridden save, whose full_clean re-validates team
capacity, raises, and the surrounding atomic view rolls everything back:
the invite stays accepted and nothing changes. -/
theorem claim_C5_counterexample :
    apiCancelInvite dbC5 1 20 = Except.error Err.teamFull ∧
    applyResult dbC5 (apiCancelInvite dbC5 1 20) = dbC5 := ⟨rfl, rfl⟩

/-- C5 amended: leader cancellation of an accepted invite removes the
invited user member rows, writes the invite back to rejected and recomputes
the team status, PROVIDED the re-run invite validation at save time passes:
after the removal the team is strictly under capacity and the invited user
no longer counts as a member through an active game account (both hold in
the ordinary case where the user's row is still on a within-capacity team).
The openness re-check of clean is dead code on this path, so closedness
imposes no condition. -/
theorem claim_C5_amended (db : DB) (r i : Nat) (inv : Invite) (team : Team) (t : Tournament)
    (hfind : findInvite db i = some inv)
    (hacc : inv.status = InviteStatus.accepted)
    (hlead : isUserTeamLeader db r inv.teamId = true)
    (hteam : findTeam db inv.teamId = some team)
    (ht : findTournament db team.tournamentId = some t)
    (hcap : memberCount (removeUserMembers db inv.teamId inv.userId) inv.teamId < t.teamSize)
    (hmem : userMemberViaActiveGA (removeUserMembers db inv.teamId inv.userId) inv.userId
      team.tournamentId = false) :
    ∃ db2, apiCancelInvite db r i = Except.ok db2 ∧
      db2.members = (removeUserMembers db inv.teamId inv.userId).members ∧
      findInvite db2 i = some { inv with status := InviteStatus.rejected } ∧
      db2 = recomputeTeamStatus (upsertInvite (removeUserMembers db inv.teamId inv.userId)
        { inv with status := InviteStatus.rejected }) inv.teamId := by
  have hteam1 : findTeam (removeUserMembers db inv.teamId inv.userId) inv.teamId = some team := hteam
  have ht1 : findTournament (removeUserMembers db inv.teamId inv.userId) team.tournamentId =
      some t := ht
  have hsave : inviteSave (removeUserMembers db inv.teamId inv.userId)
      { inv with status := InviteStatus.rejected } =
      Except.ok (upsertInvite (removeUserMembers db inv.teamId inv.userId)
        { inv with status := InviteStatus.rejected }) := by
    simp [inviteSave, inviteFullClean, inviteClean, invitePendingConflict, hteam1, ht1,
      isTournamentActiveFK, teamHasCapacity, hcap, hmem]
  refine ⟨recomputeTeamStatus (upsertInvite (removeUserMembers db inv.teamId inv.userId)
    { inv with status := InviteStatus.rejected }) inv.teamId, ?_, ?_, ?_, rfl⟩
  · simp [apiCancelInvite, hfind, hlead, hacc, hsave]
  · rw [recompute_members, upsert_members]
  · have hinv1 : findInvite (recomputeTeamStatus (upsertInvite
        (removeUserMembers db inv.teamId inv.userId)
        { inv with status := InviteStatus.rejected }) inv.teamId) i =
        findInvite (upsertInvite (removeUserMembers db inv.teamId inv.userId)
        { inv with status := InviteStatus.rejected }) i := by
      unfold findInvite
      rw [recompute_invites]
    rw [hinv1]
    exact findInvite_upsert_self (removeUserMembers db inv.teamId inv.userId) i inv
      { inv with status := InviteStatus.rejected } hfind rfl

/-- C5 witness: on dbC5w - an ordinary cancellation state whose tournament
is even CLOSED - the cancellation of accepted invite 20 by leader user 1
succeeds, the member row goes away and the invite ends rejected. -/
theorem claim_C5_witness :
    resultOk (apiCancelInvite dbC5w 1 20) = true ∧
    findInvite (applyResult dbC5w (apiCancelInvite dbC5w 1 20)) 20 =
      some { id := 20, userId := 2, teamId := 1, status := InviteStatus.rejected } := by
  obtain ⟨db2, h1, hmem2, hinv2, hcomp⟩ :=
    claim_C5_amended dbC5w 1 20 invC5 teamC5 tC5 rfl rfl (by decide) rfl rfl (by decide) rfl
  rw [h1]
  exact ⟨rfl, hinv2⟩

/-- C6 counterexample: the claim says rejection by the invited user needs
only pending status and succeeds regardless of team capacity.  On dbC6 the
team is at capacity; the status write runs save and therefore full_clean,
whose live capacity re-check raises, so the rejection fails and the invite
stays pending. -/
theorem claim_C6_counterexample :
    apiRejectInvite dbC6 3 30 = Except.error Err.teamFull ∧
    applyResult dbC6 (apiRejectInvite dbC6 3 30) = dbC6 := ⟨rfl, rfl⟩

/-- C6 amended: rejection by the invited user of a pending invite sets the
status to rejected and never touches the roster, PROVIDED the re-run invite
validation at save time also passes: team strictly under capacity and
invited user not a member through an active game account.  Tournament
openness imposes no condition: the openness re-check of clean is dead code
on the save path. -/
theorem claim_C6_amended (db : DB) (i : Nat) (inv : Invite) (team : Team) (t : Tournament)
    (hfind : findInvite db i = some inv)
    (hp : inv.status = InviteStatus.pending)
    (hteam : findTeam db inv.teamId = some team)
    (ht : findTournament db team.tournamentId = some t)
    (hcap : memberCount db inv.teamId < t.teamSize)
    (hmem : userMemberViaActiveGA db inv.userId team.tournamentId = false) :
    ∃ db2, apiRejectInvite db inv.userId i = Except.ok db2 ∧
      db2.members = db.members ∧ db2.teams = db.teams ∧
      findInvite db2 i = some { inv with status := InviteStatus.rejected } := by
  have hsave : inviteSave db { inv with status := InviteStatus.rejected } =
      Except.ok (upsertInvite db { inv with status := InviteStatus.rejected }) := by
    simp [inviteSave, inviteFullClean, inviteClean, invitePendingConflict, hteam, ht,
      isTournamentActiveFK, teamHasCapacity, hcap, hmem]
  refine ⟨upsertInvite db { inv with status := InviteStatus.rejected }, ?_, upsert_members _ _,
    upsert_teams _ _, findInvite_upsert_self db i inv _ hfind rfl⟩
  simp [apiRejectInvite, hfind, hp, hsave]

/-- C6 witness: on dbC6w - a CLOSED tournament, team under capacity,
invitee without accounts - the rejection of pending invite 30 by user 2
succeeds and only flips the status, confirming that closedness does not
block rejection. -/
theorem claim_C6_witness :
    resultOk (apiRejectInvite dbC6w 2 30) = true ∧
    findInvite (applyResult dbC6w (apiRejectInvite dbC6w 2 30)) 30 =
      some { id := 30, userId := 2, teamId := 1, status := InviteStatus.rejected } := by
  obtain ⟨db2, h1, hm2, ht2, hinv2⟩ :=
    claim_C6_amended dbC6w 30 invC6 teamC6 tC6 rfl rfl rfl rfl (by decide) rfl
  have h1x : apiRejectInvite dbC6w 2 30 = Except.ok db2 := h1
  rw [h1x]
  exact ⟨rfl, hinv2⟩

/-- C7: (1) in every committed state reachable by the core operations from
a state in which each (user, team) pair has at most one pending invite,
that uniqueness still holds — enforced by the conditional unique constraint
validated on every save; (2) an existing REJECTED invite for the pair never
blocks creating a brand-new pending invite: whenever the creation
preconditions hold (requester leads the team, target is another user who is
not on any team of the tournament, tournament open, spare capacity, no
pending invite for the pair), creation succeeds and prepends the fresh
pending row, regardless of the rejected row sitting in the table. -/
theorem claim_C7 :
    (∀ s0 s : DB, pendingUnique s0 = true → Chain Step s0 s → pendingUnique s = true) ∧
    (∀ (db : DB) (r u tid : Nat) (team : Team) (t : Tournament) (rInv : Invite),
      rInv ∈ db.invites → rInv.status = InviteStatus.rejected → rInv.userId = u →
      rInv.teamId = tid →
      findTeam db tid = some team →
      isUserTeamLeader db r tid = true →
      (u == r) = false →
      userMemberViaAnyGA db u team.tournamentId = false →
      findTournament db team.tournamentId = some t →
      t.isActive = true →
      memberCount db tid < t.teamSize →
      (db.invites.all (fun w =>
        !(w.userId == u && w.teamId == tid && w.status == InviteStatus.pending))) = true →
      createInvite db r u tid =
        Except.ok { db with invites :=
          { id := freshInviteId db, userId := u, teamId := tid,
            status := InviteStatus.pending } :: db.invites }) := by
  constructor
  · exact fun s0 s hpu hch => pendingUnique_chain s0 s hch hpu
  · intro db r u tid team t rInv hrmem hrstat hru hrt hteam hlead hneq hanyGA ht hact hcap hall
    have hmemAct : userMemberViaActiveGA db u team.tournamentId = false := by
      by_cases hma : userMemberViaActiveGA db u team.tournamentId = true
      · exact absurd (memberViaActive_le_any db u team.tournamentId hma) (by simp [hanyGA])
      · rw [Bool.not_eq_true] at hma
        exact hma
    have hconf : invitePendingConflict db
        { id := freshInviteId db, userId := u, teamId := tid,
          status := InviteStatus.pending } = false := by
      simp only [invitePendingConflict]
      rw [Bool.and_eq_false_iff]
      right
      rw [List.any_eq_false]
      intro w hw hwpred
      have hfw := hall
      rw [List.all_eq_true] at hfw
      have hfw2 := hfw w hw
      rw [Bool.not_eq_true', Bool.and_eq_false_iff, Bool.and_eq_false_iff] at hfw2
      rw [Bool.and_eq_true, Bool.and_eq_true, Bool.and_eq_true] at hwpred
      obtain ⟨⟨⟨hid2, hu2⟩, ht2⟩, hp2⟩ := hwpred
      rcases hfw2 with (hfw2 | hfw2) | hfw2
      · rw [hu2] at hfw2
        exact absurd hfw2 (by decide)
      · rw [ht2] at hfw2
        exact absurd hfw2 (by decide)
      · rw [hp2] at hfw2
        exact absurd hfw2 (by decide)
    have hfresh := invites_any_fresh_false db
    simp [createInvite, hteam, hlead, hneq, hanyGA, inviteSave, inviteFullClean, inviteClean,
      ht, isTournamentActiveFK, hact, teamHasCapacity, hcap, hmemAct, hconf, upsertInvite, hfresh]

/-- C7 witness: on dbC7, which holds a rejected invite for (user 2, team 1),
creating a new invite for the same pair succeeds, and the resulting state
still has at most one pending invite per pair. -/
theorem claim_C7_witness :
    createInvite dbC7 1 2 1 = Except.ok dbC7b ∧ pendingUnique dbC7b = true := by
  have hcreate : createInvite dbC7 1 2 1 = Except.ok dbC7b :=
    claim_C7.2 dbC7 1 2 1 teamC7 tC7 rInvC7 (by decide) rfl rfl rfl rfl (by decide) rfl
      (by decide) rfl rfl (by decide) (by decide)
  exact ⟨hcreate,
    claim_C7.1 dbC7 dbC7b (by decide) (Chain.tail (Chain.refl dbC7) (Step.invite 1 2 1 hcreate))⟩

/-- C8: inviting a user who already belongs, through any of their game
accounts, to a team of the same tournament fails at creation time with the
AlreadyMember error, before any row is written, so the committed state is
unchanged. -/
theorem claim_C8 (db : DB) (r u tid : Nat) (team : Team)
    (hteam : findTeam db tid = some team)
    (hlead : isUserTeamLeader db r tid = true)
    (hneq : (u == r) = false)
    (hmem : userMemberViaAnyGA db u team.tournamentId = true) :
    createInvite db r u tid = Except.error Err.alreadyMember ∧
    applyResult db (createInvite db r u tid) = db := by
  have h1 : createInvite db r u tid = Except.error Err.alreadyMember := by
    simp [createInvite, hteam, hlead, hneq, hmem]
  refine ⟨h1, ?_⟩
  rw [h1]
  rfl

/-- C8 witness: on dbC8, user 2 is on team 2 of tournament 1 and the invite
of user 2 to team 1 fails with AlreadyMember. -/
theorem claim_C8_witness :
    createInvite dbC8 1 2 1 = Except.error Err.alreadyMember ∧
    applyResult dbC8 (createInvite dbC8 1 2 1) = dbC8 :=
  claim_C8 dbC8 1 2 1 teamC8 rfl (by decide) rfl rfl

/-- C9: when the leader leaves, the whole team is deleted and the deletion
cascades to every member row and every invite of that team, while rows of
other teams survive; when a non-leader member leaves, exactly their own
member rows on that team are deleted and the team row, the other members
and the invites are untouched. -/
theorem claim_C9 :
    (∀ (db : DB) (r tid : Nat) (team : Team),
      findTeam db tid = some team →
      isUserTeamLeader db r tid = true →
      ∃ db2, leaveTeam db r tid = Except.ok db2 ∧
        (∀ t2 ∈ db2.teams, t2.id ≠ tid) ∧
        (∀ m ∈ db2.members, m.teamId ≠ tid) ∧
        (∀ v ∈ db2.invites, v.teamId ≠ tid) ∧
        (∀ t2 ∈ db.teams, t2.id ≠ tid → t2 ∈ db2.teams) ∧
        (∀ m ∈ db.members, m.teamId ≠ tid → m ∈ db2.members) ∧
        (∀ v ∈ db.invites, v.teamId ≠ tid → v ∈ db2.invites)) ∧
    (∀ (db : DB) (r tid : Nat) (team : Team),
      findTeam db tid = some team →
      isUserInTeam db r tid = true →
      isUserTeamLeader db r tid = false →
      ∃ db2, leaveTeam db r tid = Except.ok db2 ∧
        db2.teams = db.teams ∧ db2.invites = db.invites ∧
        (∀ m : TeamMember, m ∈ db2.members ↔
          (m ∈ db.members ∧ ¬(m.teamId = tid ∧ gaUserIs db m.gameAccountId r = true)))) := by
  constructor
  · intro db r tid team hteam hlead
    refine ⟨deleteTeamCascade db tid, ?_, ?_, ?_, ?_, ?_, ?_, ?_⟩
    · simp [leaveTeam, hteam, hlead, leader_in_team db r tid hlead]
    · intro t2 ht2
      have := (List.mem_filter.mp ht2).2
      simpa using this
    · intro m hm
      have := (List.mem_filter.mp hm).2
      simpa using this
    · intro v hv
      have := (List.mem_filter.mp hv).2
      simpa using this
    · intro t2 ht2 hne
      exact List.mem_filter.mpr ⟨ht2, by simpa using hne⟩
    · intro m hm hne
      exact List.mem_filter.mpr ⟨hm, by simpa using hne⟩
    · intro v hv hne
      exact List.mem_filter.mpr ⟨hv, by simpa using hne⟩
  · intro db r tid team hteam hin hnotl
    refine ⟨removeUserMembers db tid r, ?_, rfl, rfl, ?_⟩
    · simp [leaveTeam, hteam, hin, hnotl]
    · intro m
      constructor
      · intro hm
        have h2 := List.mem_filter.mp hm
        refine ⟨h2.1, ?_⟩
        have h3 := h2.2
        rw [Bool.not_eq_true', Bool.and_eq_false_iff] at h3
        rintro ⟨hA, hG⟩
        rcases h3 with h3 | h3
        · rw [beq_eq_false_iff_ne] at h3
          exact h3 hA
        · rw [hG] at h3
          exact absurd h3 (by decide)
      · rintro ⟨hm, hnot⟩
        refine List.mem_filter.mpr ⟨hm, ?_⟩
        rw [Bool.not_eq_true', Bool.and_eq_false_iff]
        by_cases hA : m.teamId = tid
        · right
          by_cases hG : gaUserIs db m.gameAccountId r = true
          · exact absurd ⟨hA, hG⟩ hnot
          · rw [Bool.not_eq_true] at hG
            exact hG
        · left
          exact beq_eq_false_iff_ne.mpr hA

/-- C9 witness: on dbC9 (leader user 1, member user 2, invite 60 on the
team) the leader leaving succeeds, and the non-leader leaving succeeds. -/
theorem claim_C9_witness :
    resultOk (leaveTeam dbC9 1 1) = true ∧ resultOk (leaveTeam dbC9 2 1) = true := by
  constructor
  · obtain ⟨db2, h1, _⟩ := claim_C9.1 dbC9 1 1 teamC9 rfl (by decide)
    rw [h1]
    rfl
  · obtain ⟨db2, h1, _⟩ := claim_C9.2 dbC9 2 1 teamC9 rfl (by decide) (by decide)
    rw [h1]
    rfl

/-- C10 counterexample: the claim says every persistence of an invite row
re-checks that the tournament is still open and that the invited user is
not already a member of any team in the tournament.  Both halves fail on
concrete states.  On dbC10, user 5 IS a member of team 2 of tournament 1,
but only through an inactive game account; clean collects active accounts
first (models.py lines 130-137), finds none, and the save commits.  On
dbC6w the tournament is closed, yet persisting the fresh pending invite
invC10c commits: the openness re-check never fires on any persistence path
(the FK-loaded tournament has no is_active annotation and no
registration date fields, so _is_tournament_active returns True). -/
theorem claim_C10_counterexample :
    userMemberViaAnyGA dbC10 5 1 = true ∧
    findTeam dbC10 invC10.teamId =
      some { id := 1, tournamentId := 1, teamName := "X", status := TeamStatus.invalid } ∧
    resultOk (inviteSave dbC10 invC10) = true ∧
    tC6.isActive = false ∧
    findTournament dbC6w teamC6.tournamentId = some tC6 ∧
    resultOk (inviteSave dbC6w invC10c) = true := ⟨rfl, rfl, rfl, rfl, rfl, rfl⟩

/-- C10 amended: every persistence of a TournamentInvite row re-runs the
business validation and raises when the team is not strictly under capacity
or the invited user is already a member of a team of the tournament through
one of their ACTIVE game accounts.  Two parts of the claimed validation are
not effective: the tournament-openness re-check is dead code on every
persistence path, and memberships held only through inactive accounts
escape the membership check. -/
theorem claim_C10_amended (db : DB) (inv : Invite) (team : Team) (t : Tournament)
    (hteam : findTeam db inv.teamId = some team)
    (ht : findTournament db team.tournamentId = some t)
    (hfail : teamHasCapacity db inv.teamId t = false ∨
      userMemberViaActiveGA db inv.userId team.tournamentId = true) :
    resultOk (inviteSave db inv) = false := by
  cases hclean : inviteClean db inv with
  | error e => simp [inviteSave, inviteFullClean, hclean, resultOk]
  | ok u =>
    exfalso
    unfold inviteClean at hclean
    split at hclean
    · exact Except.noConfusion hclean
    · rename_i team2 hteam2
      split at hclean
      · exact Except.noConfusion hclean
      · rename_i t2 ht2
        have hteameq : team2 = team := Option.some.inj (hteam2.symm.trans hteam)
        subst hteameq
        have hteq : t2 = t := Option.some.inj (ht2.symm.trans ht)
        subst hteq
        split at hclean
        · exact Except.noConfusion hclean
        · split at hclean
          · exact Except.noConfusion hclean
          · split at hclean
            · exact Except.noConfusion hclean
            · rename_i hA hB hC
              rcases hfail with hf | hf
              · exact hB (by rw [hf]; decide)
              · exact hC hf

/-- C10 witness: on the full team of dbC6, persisting the pending invite
fails through the live capacity re-check. -/
theorem claim_C10_witness : resultOk (inviteSave dbC6 invC6full) = false :=
  claim_C10_amended dbC6 invC6full teamC6full tC6full rfl rfl (Or.inl rfl)

end TurnaPlay
